import Mathlib

/-!
Verification development for the `maven-pom-editor` VS Code extension
(`src/extension.ts`).  The TypeScript code is shallowly embedded as
executable Lean definitions:

* `MavenUtils.parseDependencyTree`, `MavenUtils.parseResolvedDependencies`,
  `MavenUtils.calculateIndent`, `MavenUtils.parseDependencyNode` and
  `MavenUtils.parseResolvedDependencyNode` are modelled over `List Char`
  (a JS string is its character sequence); regex operations of the source
  are modelled by explicit scanning functions with the same match
  semantics (leftmost match, `$`-anchored).
* `CacheManager` is modelled as explicit state passing over association
  lists: one map per cache tier, keyed by the `(pomPath, cacheKey)` pair
  (the md5-based key strings of the source are injective in that pair and
  are abstracted away).  The file-system effects (`fs.stat`, write
  failures, `storageUri` availability) are an explicit environment.
-/

namespace MavenPom

/-- Whitespace as trimmed by JS `trim` (the characters relevant here). -/
def isWS (c : Char) : Bool :=
  c = ' ' || c = '\t' || c = '\n' || c = '\r'

/-- JS `trimStart`. -/
def trimStart (l : List Char) : List Char :=
  l.dropWhile isWS

/-- JS `trim`. -/
def trim (l : List Char) : List Char :=
  ((l.dropWhile isWS).reverse.dropWhile isWS).reverse

/-- JS `includes`: substring containment. -/
def hasSubstr (pat : List Char) : List Char → Bool
  | [] => pat.isEmpty
  | c :: rest => pat.isPrefixOf (c :: rest) || hasSubstr pat rest

/-- JS `split(sep)` for a one-character separator. -/
def splitOnChar (sep : Char) : List Char → List (List Char)
  | [] => [[]]
  | c :: rest =>
    let r := splitOnChar sep rest
    if c = sep then [] :: r
    else
      match r with
      | h :: t => (c :: h) :: t
      | [] => [[c]]

def infoLit : List Char := "[INFO]".data

/-- Model of `line.substring(line.indexOf('[INFO]') + 6)`: drop everything up to and
including the first occurrence of `[INFO]`.  (Only used on lines where the
occurrence exists.) -/
def dropThroughInfo : List Char → List Char
  | [] => []
  | c :: rest =>
    if infoLit.isPrefixOf (c :: rest) then (c :: rest).drop 6
    else dropThroughInfo rest

/-- The character class of the source regex `^[+\-\\| ]+`. -/
def isGlyph (c : Char) : Bool :=
  c = '+' || c = '-' || c = '\\' || c = '|' || c = ' '

/-- Model of `MavenUtils.calculateIndent`, literal transcription of the loop: a
space increments the counter, a tree-drawing glyph is passed over by
`continue` WITHOUT incrementing, any other character stops the loop; the
result is the counter divided by 3. -/
def calculateIndentL : List Char → Nat
  | [] => 0
  | c :: rest =>
    if c = ' ' then calculateIndentL rest + 1
    else if c = '|' || c = '+' || c = '\\' || c = '-' then calculateIndentL rest
    else 0

namespace MavenUtils

def calculateIndent (line : String) : Nat :=
  (calculateIndentL line.data) / 3

end MavenUtils

/-- A resolved (flat-list) dependency record, `ResolvedDependency` of the
source. -/
structure ResolvedDependency where
  groupId : String
  artifactId : String
  type : String
  version : String
  scope : Option String
  classifier : Option String
deriving DecidableEq, Repr

/-- A dependency-tree node, `DependencyNode` of the source. -/
inductive DependencyNode where
  | mk (groupId artifactId type version : String)
       (scope classifier omittedReason : Option String)
       (children : List DependencyNode)

/-- Model of `parent.children.push(node)` of the source (`children` is initialised
to `[]` by the parser, so the `if (!parent.children)` guard is a no-op). -/
def addChild : DependencyNode → DependencyNode → DependencyNode
  | .mk g a t v s c o ch, child => .mk g a t v s c o (ch ++ [child])

/-- Shared coordinate destructuring of `parseDependencyNode` and
`parseResolvedDependencyNode` (the two functions contain the identical
`split(':')` destructuring; it is written once here).  Returns the six
fields in the source's order: fewer than 4 parts fail, 4 parts are
`(groupId, artifactId, type, version)`, 5 add `scope`, 6 or more use the
first six as `(groupId, artifactId, type, classifier, version, scope)`.
Every field is trimmed. -/
def destructureParts (parts : List (List Char)) :
    Option (String × String × String × String × Option String × Option String) :=
  match parts with
  | [a, b, c, d] =>
    some (String.mk (trim a), String.mk (trim b), String.mk (trim c),
          String.mk (trim d), none, none)
  | [a, b, c, d, e] =>
    some (String.mk (trim a), String.mk (trim b), String.mk (trim c),
          String.mk (trim d), some (String.mk (trim e)), none)
  | a :: b :: c :: d :: e :: f :: _ =>
    some (String.mk (trim a), String.mk (trim b), String.mk (trim c),
          String.mk (trim e), some (String.mk (trim f)),
          some (String.mk (trim d)))
  | _ => none

/-- Model of `MavenUtils.parseResolvedDependencyNode` over the character list. -/
def parseResolvedDependencyNodeL (content : List Char) : Option ResolvedDependency :=
  match destructureParts (splitOnChar ':' content) with
  | some (g, a, t, v, s, cl) =>
    some { groupId := g, artifactId := a, type := t, version := v,
           scope := s, classifier := cl }
  | none => none

namespace MavenUtils

def parseResolvedDependencyNode (content : String) : Option ResolvedDependency :=
  parseResolvedDependencyNodeL content.data

end MavenUtils

/-- A JS line terminator, which `.` (without the `s` flag) never
matches: LF, CR, LINE SEPARATOR (U+2028), PARAGRAPH SEPARATOR (U+2029). -/
def isLineTerm (c : Char) : Bool :=
  c = '\n' || c = '\r' || c = '\u2028' || c = '\u2029'

/-- The regex `^\((.+)\)$` of `parseDependencyNode`: when the whole content
is wrapped in parentheses with a nonempty inside whose every character is
matched by `.` — that is, the inside contains no line terminator — remove
the outer pair, otherwise keep the content unchanged. -/
def unwrapParens (cs : List Char) : List Char :=
  match cs with
  | '(' :: rest =>
    if 2 ≤ rest.length ∧ rest.getLast? = some ')' ∧
        rest.dropLast.all (fun c => !isLineTerm c) = true then rest.dropLast
    else cs
  | _ => cs

def conflictLit : List Char := " - omitted for conflict with ".data
def dupLit : List Char := " - omitted for duplicate".data
def cycleLit : List Char := " - omitted for cycle".data
def managedLit : List Char := " - version managed from ".data

/-- The list `conflictLit` without its leading space. -/
def conflictTail : List Char := "- omitted for conflict with ".data

/-- The list `dupLit` without its leading space. -/
def dupTail : List Char := "- omitted for duplicate".data

/-- The list `cycleLit` without its leading space. -/
def cycleTail : List Char := "- omitted for cycle".data

/-- The list `managedLit` without its leading space. -/
def managedTail : List Char := "- version managed from ".data

/-- The list `conflictLit` without its leading `" - o"`. -/
def conflictRest4 : List Char := "mitted for conflict with ".data

/-- The list `dupLit` without its leading `" - o"`. -/
def dupRest4 : List Char := "mitted for duplicate".data

/-- The list `cycleLit` without its leading `" - o"`. -/
def cycleRest4 : List Char := "mitted for cycle".data

/-- Tail condition of the capture `([^)]+)$`. -/
def noParen (t : List Char) : Bool :=
  !t.isEmpty && t.all (fun c => c ≠ ')')

/-- Tail condition of a plain `$`-anchored literal pattern. -/
def emptyTail (t : List Char) : Bool :=
  t.isEmpty

/-- Model of `content.match(/LIT ...$/)` followed by `content.replace(pattern, '')`:
find the leftmost position where `lit` occurs and the remaining tail
satisfies the anchored rest of the pattern; return the prefix before the
match (which is what `replace` leaves, the match extending to the end of
the string), or `none` when the pattern does not match. -/
def scanAnchored (lit : List Char) (tailOk : List Char → Bool) :
    List Char → Option (List Char)
  | [] => none
  | c :: rest =>
    if lit.isPrefixOf (c :: rest) && tailOk (List.drop lit.length (c :: rest)) then
      some []
    else
      match scanAnchored lit tailOk rest with
      | some pre => some (c :: pre)
      | none => none

/-- The `omittedPatterns` loop of `parseDependencyNode`: the four patterns
are tried in source order and the first match wins, yielding the reason
tag and the prefix kept by `replace(pattern, '')`. -/
def matchOmitted (cs : List Char) : Option (String × List Char) :=
  match scanAnchored conflictLit noParen cs with
  | some pre => some ("conflict", pre)
  | none =>
    match scanAnchored dupLit emptyTail cs with
    | some pre => some ("duplicate", pre)
    | none =>
      match scanAnchored cycleLit emptyTail cs with
      | some pre => some ("cycle", pre)
      | none =>
        match scanAnchored managedLit noParen cs with
        | some pre => some ("managed", pre)
        | none => none

/-- Final stage of `parseDependencyNode`: split the clean content on `:`
and destructure, attaching the omission reason; `children` starts `[]`. -/
def decodeCoordTree (cs : List Char) (reason : Option String) : Option DependencyNode :=
  match destructureParts (splitOnChar ':' cs) with
  | some (g, a, t, v, s, cl) => some (.mk g a t v s cl reason [])
  | none => none

/-- Model of `MavenUtils.parseDependencyNode`: unwrap parentheses, classify and
strip an omission suffix (the clean content is trimmed exactly when a
pattern matched, as in the source), then decode the coordinates. -/
def parseDependencyNodeL (content : List Char) : Option DependencyNode :=
  let c1 := unwrapParens content
  match matchOmitted c1 with
  | some (r, pre) => decodeCoordTree (trim pre) (some r)
  | none => decodeCoordTree c1 none

namespace MavenUtils

def parseDependencyNode (content : String) : Option DependencyNode :=
  parseDependencyNodeL content.data

end MavenUtils

def dashesLit : List Char := "---".data
def mdpLit : List Char := "maven-dependency-plugin".data
def downloadingLit : List Char := "Downloading".data
def downloadedLit : List Char := "Downloaded".data
def theFollowingLit : List Char := "The following".data

/-- State of the dependency-tree parser: the finished root trees and the
current stack of `(node, indent)` pairs.  The source mutates nodes that
are simultaneously on the stack and reachable from `rootNodes`; the pure
model instead attaches a node to its parent at the moment it leaves the
stack, which yields the same final trees. -/
abbrev TreeState := List DependencyNode × List (DependencyNode × Nat)

/-- Fold a stack chain from the top down: each node is attached as a child
of the node below it (realising the source's at-push-time
`parent.children.push(node)` mutations). -/
def collapseGo (top : DependencyNode × Nat) :
    List (DependencyNode × Nat) → DependencyNode × Nat
  | [] => top
  | (p, pi) :: rest => collapseGo (addChild p top.1, pi) rest

/-- Collapse a whole stack to its bottom node (with all attachments
realised), or `none` for the empty stack. -/
def collapseStack : List (DependencyNode × Nat) → Option (DependencyNode × Nat)
  | [] => none
  | top :: rest => some (collapseGo top rest)

/-- The `while (stack.length > 0 && top.indent >= indent) stack.pop()` loop:
the popped prefix is folded together and attached to the first surviving
element; if nothing survives the popped chain is dropped (it was reachable
from no root in the source either). -/
def popAttach (ind : Nat) (stack : List (DependencyNode × Nat)) :
    List (DependencyNode × Nat) :=
  match stack.takeWhile (fun e => ind ≤ e.2), stack.dropWhile (fun e => ind ≤ e.2) with
  | [], _ => stack
  | p :: ps, kept =>
    match collapseGo p ps, kept with
    | _, [] => []
    | (c, _), (pn, pi2) :: krest => (addChild pn c, pi2) :: krest

/-- One iteration of the `for (const line of lines)` loop of
`parseDependencyTree`. -/
def treeStep (st : TreeState) (line : List Char) : TreeState :=
  if !hasSubstr infoLit line || (trim line).isEmpty then st
  else
    let content := trimStart (dropThroughInfo line)
    if hasSubstr dashesLit content || hasSubstr mdpLit content ||
       downloadingLit.isPrefixOf content || downloadedLit.isPrefixOf content then st
    else
      let ind := (calculateIndentL content) / 3
      let content2 := trim (content.dropWhile isGlyph)
      if content2.isEmpty then st
      else
        match parseDependencyNodeL content2 with
        | none => st
        | some node =>
          if ind = 0 then
            let roots2 :=
              match collapseStack st.2 with
              | some (n, 0) => st.1 ++ [n]
              | _ => st.1
            (roots2, [(node, 0)])
          else
            (st.1, (node, ind) :: popAttach ind st.2)

/-- After the loop: the still-standing stack chain belongs to the last
root (when its bottom is at indent 0). -/
def finishTree (st : TreeState) : List DependencyNode :=
  match collapseStack st.2 with
  | some (n, 0) => st.1 ++ [n]
  | _ => st.1

def parseTreeLines (lines : List (List Char)) : List DependencyNode :=
  finishTree (lines.foldl treeStep ([], []))

namespace MavenUtils

/-- Model of `MavenUtils.parseDependencyTree`. -/
def parseDependencyTree (treeText : String) : List DependencyNode :=
  parseTreeLines (splitOnChar '\n' treeText.data)

end MavenUtils

def colonLit : List Char := ":".data

/-- Model of the template string groupId-colon-artifactId, the de-duplication
key of `parseResolvedDependencies`. -/
def depKey (d : ResolvedDependency) : String :=
  d.groupId ++ ":" ++ d.artifactId

/-- State of the flat-list parser: output list and the `seenDependencies`
set (as the list of keys added so far). -/
abbrev ListState := List ResolvedDependency × List String

/-- One iteration of the `for (const line of lines)` loop of
`parseResolvedDependencies`. -/
def listStep (st : ListState) (line : List Char) : ListState :=
  if !hasSubstr infoLit line then st
  else
    let content := trim (dropThroughInfo line)
    if content.isEmpty || hasSubstr dashesLit content || hasSubstr mdpLit content ||
       theFollowingLit.isPrefixOf content || downloadingLit.isPrefixOf content ||
       downloadedLit.isPrefixOf content || !hasSubstr colonLit content then st
    else
      match parseResolvedDependencyNodeL content with
      | none => st
      | some d =>
        if st.2.contains (depKey d) then st
        else (st.1 ++ [d], depKey d :: st.2)

def parseListLines (lines : List (List Char)) : List ResolvedDependency :=
  (lines.foldl listStep ([], [])).1

namespace MavenUtils

/-- Model of `MavenUtils.parseResolvedDependencies`. -/
def parseResolvedDependencies (listText : String) : List ResolvedDependency :=
  parseListLines (splitOnChar '\n' listText.data)

end MavenUtils

/-- A tree line that `parseDependencyTree` passes over without touching
its state: no `[INFO]` marker / blank, a plugin-noise line, empty content
after stripping the drawing glyphs, or content the node decoder rejects. -/
def treeLineSkipped (line : List Char) : Bool :=
  if !hasSubstr infoLit line || (trim line).isEmpty then true
  else
    let content := trimStart (dropThroughInfo line)
    if hasSubstr dashesLit content || hasSubstr mdpLit content ||
       downloadingLit.isPrefixOf content || downloadedLit.isPrefixOf content then true
    else
      let content2 := trim (content.dropWhile isGlyph)
      if content2.isEmpty then true
      else
        match parseDependencyNodeL content2 with
        | none => true
        | some _ => false

/-- A list line that `parseResolvedDependencies` passes over without
touching its state: no `[INFO]` marker, a filtered noise line, a line
without `:`, or content the coordinate decoder rejects. -/
def listLineSkipped (line : List Char) : Bool :=
  if !hasSubstr infoLit line then true
  else
    let content := trim (dropThroughInfo line)
    if content.isEmpty || hasSubstr dashesLit content || hasSubstr mdpLit content ||
       theFollowingLit.isPrefixOf content || downloadingLit.isPrefixOf content ||
       downloadedLit.isPrefixOf content || !hasSubstr colonLit content then true
    else
      match parseResolvedDependencyNodeL content with
      | none => true
      | some _ => false

/-! ## The cache manager -/

namespace CacheManager

def CACHE_VERSION : String := "1.0.0"

/-- Constant `60 * 60 * 1000` milliseconds. -/
def MAX_CACHE_AGE_MS : Int := 3600000

/-- Constant `50 * 1024` bytes. -/
def SMALL_DATA_THRESHOLD : Nat := 51200

/-- Record `CacheData` of the source.  The cached payload is modelled by its JSON
serialisation (a string); timestamps and mtimes are integers as JS
numbers. -/
structure CacheData where
  data : String
  timestamp : Int
  pomMtime : Int
  version : String
deriving DecidableEq, Repr

/-- Cache keys.  The source derives a memory-cache key
`pomPath + ':' + cacheKey` and an md5-based `workspaceState`/file key from
the same pair; all are injective in `(pomPath, cacheKey)`, which is used
directly here. -/
abbrev CKey := String × String

/-- Lookup in one cache tier (`Map.get` / `workspaceState.get` / reading
the cache file). -/
def lookupA (m : List (CKey × CacheData)) (k : CKey) : Option CacheData :=
  match m with
  | [] => none
  | (k2, v) :: rest => if k2 = k then some v else lookupA rest k

/-- Store into one cache tier (`Map.set` / `workspaceState.update` /
writing the cache file): the new binding shadows any older one. -/
def insertA (m : List (CKey × CacheData)) (k : CKey) (v : CacheData) :
    List (CKey × CacheData) :=
  (k, v) :: m

/-- The three tiers: L1 `memoryCache`, L2 `workspaceState`, L3 the
`storageUri` file cache. -/
structure CacheState where
  memoryCache : List (CKey × CacheData)
  workspaceState : List (CKey × CacheData)
  fileCache : List (CKey × CacheData)
deriving Repr

/-- The file-system environment of one call: `fs.stat` on the POM file
(`none` models a thrown error), the current clock, `storageUri`
availability, and whether the two persistent write operations succeed. -/
structure Env where
  statResult : Option Int
  now : Int
  storageAvailable : Bool
  wsUpdateOk : Bool
  fileWriteOk : Bool

/-- Model of `CacheManager.isCacheValid`: version check, fixed-TTL age check, then
the live `fs.stat` probe whose failure (catch block) makes the entry
invalid, as does a source mtime strictly newer than the stored one. -/
def isCacheValid (cached : CacheData) (env : Env) : Bool :=
  if cached.version ≠ CACHE_VERSION then false
  else if env.now - cached.timestamp > MAX_CACHE_AGE_MS then false
  else
    match env.statResult with
    | some m => if m > cached.pomMtime then false else true
    | none => false

/-- Model of `CacheManager.getFromFileCache`: `none` without a `storageUri`,
otherwise the stored entry. -/
def getFromFileCache (st : CacheState) (k : CKey) (env : Env) : Option CacheData :=
  if env.storageAvailable then lookupA st.fileCache k else none

/-- Model of `CacheManager.get`: an early `null` on `forceRefresh`, then the three
tiers probed in order L1, L2, L3, each hit guarded by `isCacheValid`; an
L2 or L3 hit is backfilled into the memory cache (and into it only). -/
def get (st : CacheState) (pomPath cacheKey : String) (forceRefresh : Bool)
    (env : Env) : Option String × CacheState :=
  if forceRefresh then (none, st)
  else
    let k : CKey := (pomPath, cacheKey)
    let memHit :=
      match lookupA st.memoryCache k with
      | some c => if isCacheValid c env then some c else none
      | none => none
    match memHit with
    | some c => (some c.data, st)
    | none =>
      let wsHit :=
        match lookupA st.workspaceState k with
        | some c => if isCacheValid c env then some c else none
        | none => none
      match wsHit with
      | some c =>
        (some c.data, { st with memoryCache := insertA st.memoryCache k c })
      | none =>
        let fileHit :=
          match getFromFileCache st k env with
          | some c => if isCacheValid c env then some c else none
          | none => none
        match fileHit with
        | some c =>
          (some c.data, { st with memoryCache := insertA st.memoryCache k c })
        | none => (none, st)

/-- Model of `CacheManager.estimateDataSize`: `JSON.stringify(data).length`; the
payload is modelled by its serialisation, so this is its length. -/
def estimateDataSize (d : String) : Nat :=
  d.length

/-- The `try` block of `CacheManager.set`, with the state reached at each
exit point and a flag telling whether an exception was thrown (to be
caught by `set`): a failing `fs.stat` throws before any write; otherwise
the memory cache is written, then exactly one persistent tier is
attempted — `workspaceState` below the size threshold, the file cache
otherwise (`setToFileCache` returns silently without a `storageUri` and
rethrows a failed write). -/
def setBody (st : CacheState) (pomPath cacheKey : String) (d : String)
    (env : Env) : CacheState × Bool :=
  match env.statResult with
  | none => (st, true)
  | some m =>
    let cd : CacheData :=
      { data := d, timestamp := env.now, pomMtime := m, version := CACHE_VERSION }
    let k : CKey := (pomPath, cacheKey)
    let st1 := { st with memoryCache := insertA st.memoryCache k cd }
    if estimateDataSize d < SMALL_DATA_THRESHOLD then
      if env.wsUpdateOk then
        ({ st1 with workspaceState := insertA st1.workspaceState k cd }, false)
      else (st1, true)
    else
      if env.storageAvailable then
        if env.fileWriteOk then
          ({ st1 with fileCache := insertA st1.fileCache k cd }, false)
        else (st1, true)
      else (st1, false)

/-- Model of `CacheManager.set`: the `try` block wrapped in the `catch` that logs
and swallows every error, leaving the writes already performed in place. -/
def set (st : CacheState) (pomPath cacheKey : String) (d : String)
    (env : Env) : CacheState :=
  (setBody st pomPath cacheKey d env).1

end CacheManager

/-! ## Helper lemmas -/

theorem isPrefixOf_append_self (l t : List Char) : l.isPrefixOf (l ++ t) = true := by
  induction l with
  | nil => simp [List.isPrefixOf]
  | cons a as ih => simp [List.isPrefixOf, ih]

theorem isPrefixOf_head_mismatch (a c : Char) (t r : List Char) (h : (a == c) = false) :
    (a :: t).isPrefixOf (c :: r) = false := by
  simp [List.isPrefixOf, h]

theorem isPrefixOf_mismatch2 (a b c : Char) (t r : List Char) (h : (b == c) = false) :
    (a :: b :: t).isPrefixOf (a :: c :: r) = false := by
  simp [List.isPrefixOf, h]

theorem isPrefixOf_mismatch4 (a b c d e : Char) (t r : List Char) (h : (d == e) = false) :
    (a :: b :: c :: d :: t).isPrefixOf (a :: b :: c :: e :: r) = false := by
  simp [List.isPrefixOf, h]

theorem space3_prefix_of_no_space (t x : List Char) (hx : ∀ c ∈ x, c ≠ ' ') :
    (' ' :: '-' :: ' ' :: t).isPrefixOf (' ' :: x) = false := by
  match x with
  | [] => simp [List.isPrefixOf]
  | [c] => simp [List.isPrefixOf]
  | c :: d :: x3 =>
    have hd : (' ' == d) = false := by
      have := hx d (by simp)
      simp [beq_eq_false_iff_ne]
      exact fun e => this e.symm
    simp [List.isPrefixOf, hd]

theorem scan_step (lit : List Char) (tailOk : List Char → Bool) (c : Char)
    (rest : List Char) (h : lit.isPrefixOf (c :: rest) = false) :
    scanAnchored lit tailOk (c :: rest) =
      (scanAnchored lit tailOk rest).map (fun q => c :: q) := by
  rw [scanAnchored]
  simp only [h, Bool.false_and, if_neg (by simp : ¬ (false = true))]
  cases scanAnchored lit tailOk rest <;> simp

theorem scan_append_no_space (l2 : List Char) (tailOk : List Char → Bool)
    (p rest : List Char) (hp : ∀ c ∈ p, c ≠ ' ') :
    scanAnchored (' ' :: l2) tailOk (p ++ rest) =
      (scanAnchored (' ' :: l2) tailOk rest).map (fun q => p ++ q) := by
  induction p with
  | nil =>
    simp
  | cons a as ih =>
    have ha : ((' ' :: l2).isPrefixOf (a :: (as ++ rest))) = false := by
      apply isPrefixOf_head_mismatch
      have := hp a (by simp)
      simp [beq_eq_false_iff_ne]
      exact fun e => this e.symm
    have ih2 := ih (fun c hc => hp c (by simp [hc]))
    rw [List.cons_append, scan_step _ _ _ _ ha, ih2]
    cases scanAnchored (' ' :: l2) tailOk rest <;> simp

theorem scan_no_space (l2 : List Char) (tailOk : List Char → Bool)
    (x : List Char) (hx : ∀ c ∈ x, c ≠ ' ') :
    scanAnchored (' ' :: l2) tailOk x = none := by
  have h := scan_append_no_space l2 tailOk x [] hx
  simp at h
  exact h

theorem scan_head_match (l2 x : List Char) (tailOk : List Char → Bool)
    (h : tailOk x = true) :
    scanAnchored (' ' :: l2) tailOk ((' ' :: l2) ++ x) = some [] := by
  rw [List.cons_append, scanAnchored]
  have h1 : (' ' :: l2).isPrefixOf (' ' :: (l2 ++ x)) = true := by
    have h0 := isPrefixOf_append_self (' ' :: l2) x
    simp at h0
    simp [h0]
  have h2 : List.drop (' ' :: l2).length (' ' :: (l2 ++ x)) = x := by
    simp [List.drop_left]
  rw [h1, h2, h]
  simp

theorem scan_omitted_over_managed (t : List Char) (tailOk : List Char → Bool)
    (x : List Char) (hx : ∀ c ∈ x, c ≠ ' ') :
    scanAnchored (' ' :: '-' :: ' ' :: 'o' :: t) tailOk (managedLit ++ x) = none := by
  have hx0 : scanAnchored (' ' :: '-' :: ' ' :: 'o' :: t) tailOk x = none :=
    scan_no_space _ _ x hx
  have h23 : scanAnchored (' ' :: '-' :: ' ' :: 'o' :: t) tailOk (' ' :: x) = none := by
    rw [scan_step _ _ _ _ (space3_prefix_of_no_space ('o' :: t) x hx), hx0]
    rfl
  have hfrom : scanAnchored (' ' :: '-' :: ' ' :: 'o' :: t) tailOk
      ('f' :: 'r' :: 'o' :: 'm' :: ' ' :: x) = none := by
    have h := scan_append_no_space ('-' :: ' ' :: 'o' :: t) tailOk
      ['f', 'r', 'o', 'm'] (' ' :: x) (by decide)
    simp only [List.cons_append, List.nil_append] at h
    rw [h, h23]
    rfl
  have h18 : scanAnchored (' ' :: '-' :: ' ' :: 'o' :: t) tailOk
      (' ' :: 'f' :: 'r' :: 'o' :: 'm' :: ' ' :: x) = none := by
    rw [scan_step _ _ _ _ (isPrefixOf_mismatch2 ' ' '-' 'f' _ _ (by decide)), hfrom]
    rfl
  have hman : scanAnchored (' ' :: '-' :: ' ' :: 'o' :: t) tailOk
      ('m' :: 'a' :: 'n' :: 'a' :: 'g' :: 'e' :: 'd' :: ' ' :: 'f' :: 'r' :: 'o' :: 'm' :: ' ' :: x) = none := by
    have h := scan_append_no_space ('-' :: ' ' :: 'o' :: t) tailOk
      ['m', 'a', 'n', 'a', 'g', 'e', 'd'] (' ' :: 'f' :: 'r' :: 'o' :: 'm' :: ' ' :: x) (by decide)
    simp only [List.cons_append, List.nil_append] at h
    rw [h, h18]
    rfl
  have h10 : scanAnchored (' ' :: '-' :: ' ' :: 'o' :: t) tailOk
      (' ' :: 'm' :: 'a' :: 'n' :: 'a' :: 'g' :: 'e' :: 'd' :: ' ' :: 'f' :: 'r' :: 'o' :: 'm' :: ' ' :: x) = none := by
    rw [scan_step _ _ _ _ (isPrefixOf_mismatch2 ' ' '-' 'm' _ _ (by decide)), hman]
    rfl
  have hver : scanAnchored (' ' :: '-' :: ' ' :: 'o' :: t) tailOk
      ('v' :: 'e' :: 'r' :: 's' :: 'i' :: 'o' :: 'n' :: ' ' :: 'm' :: 'a' :: 'n' :: 'a' :: 'g' :: 'e' :: 'd' :: ' ' :: 'f' :: 'r' :: 'o' :: 'm' :: ' ' :: x) = none := by
    have h := scan_append_no_space ('-' :: ' ' :: 'o' :: t) tailOk
      ['v', 'e', 'r', 's', 'i', 'o', 'n']
      (' ' :: 'm' :: 'a' :: 'n' :: 'a' :: 'g' :: 'e' :: 'd' :: ' ' :: 'f' :: 'r' :: 'o' :: 'm' :: ' ' :: x) (by decide)
    simp only [List.cons_append, List.nil_append] at h
    rw [h, h10]
    rfl
  have h2 : scanAnchored (' ' :: '-' :: ' ' :: 'o' :: t) tailOk
      (' ' :: 'v' :: 'e' :: 'r' :: 's' :: 'i' :: 'o' :: 'n' :: ' ' :: 'm' :: 'a' :: 'n' :: 'a' :: 'g' :: 'e' :: 'd' :: ' ' :: 'f' :: 'r' :: 'o' :: 'm' :: ' ' :: x) = none := by
    rw [scan_step _ _ _ _ (isPrefixOf_mismatch2 ' ' '-' 'v' _ _ (by decide)), hver]
    rfl
  have h1 : scanAnchored (' ' :: '-' :: ' ' :: 'o' :: t) tailOk
      ('-' :: ' ' :: 'v' :: 'e' :: 'r' :: 's' :: 'i' :: 'o' :: 'n' :: ' ' :: 'm' :: 'a' :: 'n' :: 'a' :: 'g' :: 'e' :: 'd' :: ' ' :: 'f' :: 'r' :: 'o' :: 'm' :: ' ' :: x) = none := by
    rw [scan_step _ _ _ _ (isPrefixOf_head_mismatch ' ' '-' _ _ (by decide)), h2]
    rfl
  have hall : managedLit ++ x =
      ' ' :: '-' :: ' ' :: 'v' :: 'e' :: 'r' :: 's' :: 'i' :: 'o' :: 'n' :: ' ' :: 'm' :: 'a' :: 'n' :: 'a' :: 'g' :: 'e' :: 'd' :: ' ' :: 'f' :: 'r' :: 'o' :: 'm' :: ' ' :: x := rfl
  rw [hall, scan_step _ _ _ _ (isPrefixOf_mismatch4 ' ' '-' ' ' 'o' 'v' _ _ (by decide)), h1]
  rfl

theorem unwrapParens_of_last_ne (cs : List Char) (h : cs.getLast? ≠ some ')') :
    unwrapParens cs = cs := by
  match cs with
  | [] => rfl
  | c :: rest =>
    by_cases hc : c = '('
    · subst hc
      unfold unwrapParens
      match rest with
      | [] => rfl
      | r :: rest2 =>
        have hlast : (r :: rest2).getLast? ≠ some ')' := by
          intro he
          exact h (by simp [he])
        simp [hlast]
    · unfold unwrapParens
      match rest with
      | [] =>
        simp at hc
        simp [hc]
      | r :: rest2 =>
        simp at hc
        simp [hc]

theorem unwrapParens_wrap (w : List Char) (hw : w ≠ [])
    (hterm : ∀ c ∈ w, isLineTerm c = false) :
    unwrapParens ('(' :: (w ++ [')'])) = w := by
  have h1 : (w ++ [')']).getLast? = some ')' := List.getLast?_concat w
  have h2 : 2 ≤ (w ++ [')']).length := by
    match w, hw with
    | a :: w2, _ => simp
  have h3 : (w ++ [')']).dropLast.all (fun c => !isLineTerm c) = true := by
    rw [List.dropLast_concat]
    rw [List.all_eq_true]
    intro c hc
    rw [Bool.not_eq_true']
    exact hterm c hc
  show (if 2 ≤ (w ++ [')']).length ∧ (w ++ [')']).getLast? = some ')' ∧
        (w ++ [')']).dropLast.all (fun c => !isLineTerm c) = true then
      (w ++ [')']).dropLast else '(' :: (w ++ [')'])) = w
  rw [if_pos ⟨h2, h1, h3⟩]
  exact List.dropLast_concat

theorem conflictLit_cons : conflictLit = ' ' :: conflictTail := rfl

theorem dupLit_cons : dupLit = ' ' :: dupTail := rfl

theorem cycleLit_cons : cycleLit = ' ' :: cycleTail := rfl

theorem managedLit_cons : managedLit = ' ' :: managedTail := rfl

theorem conflictLit_cons4 : conflictLit = ' ' :: '-' :: ' ' :: 'o' :: conflictRest4 := rfl

theorem dupLit_cons4 : dupLit = ' ' :: '-' :: ' ' :: 'o' :: dupRest4 := rfl

theorem cycleLit_cons4 : cycleLit = ' ' :: '-' :: ' ' :: 'o' :: cycleRest4 := rfl

theorem noParen_of (x : List Char) (h1 : x ≠ []) (h3 : ∀ c ∈ x, c ≠ ')') :
    noParen x = true := by
  simp [noParen, List.all_eq_true, List.isEmpty_iff]
  exact ⟨h1, h3⟩

theorem getLast_ne_of_no_paren (p lit x : List Char) (hx1 : x ≠ [])
    (hx3 : ∀ c ∈ x, c ≠ ')') :
    (p ++ (lit ++ x)).getLast? ≠ some ')' := by
  have hex : ∃ c, x.getLast? = some c := by
    cases h : x.getLast? with
    | none => exact absurd (List.getLast?_eq_none_iff.mp h) hx1
    | some c => exact ⟨c, rfl⟩
  obtain ⟨c, hc⟩ := hex
  have hmem : c ∈ x := List.mem_of_getLast?_eq_some hc
  have hne : c ≠ ')' := hx3 c hmem
  simp [List.getLast?_append, hc, Option.or]
  exact hne

theorem matchOmitted_conflict (p x : List Char) (hp : ∀ c ∈ p, c ≠ ' ')
    (hx1 : x ≠ []) (hx3 : ∀ c ∈ x, c ≠ ')') :
    matchOmitted (p ++ (conflictLit ++ x)) = some ("conflict", p) := by
  have hs : scanAnchored conflictLit noParen (p ++ (conflictLit ++ x)) = some p := by
    rw [conflictLit_cons, scan_append_no_space _ _ p _ hp,
        scan_head_match _ _ _ (noParen_of x hx1 hx3)]
    simp
  unfold matchOmitted
  rw [hs]

theorem matchOmitted_dup (p : List Char) (hp : ∀ c ∈ p, c ≠ ' ') :
    matchOmitted (p ++ dupLit) = some ("duplicate", p) := by
  have h1 : scanAnchored conflictLit noParen (p ++ dupLit) = none := by
    rw [conflictLit_cons, scan_append_no_space _ _ p _ hp]
    rfl
  have hs : scanAnchored dupLit emptyTail (p ++ dupLit) = some p := by
    rw [dupLit_cons, scan_append_no_space _ _ p _ hp]
    have hone : scanAnchored (' ' :: dupTail) emptyTail (' ' :: dupTail) = some [] := by
      decide
    rw [hone]
    simp
  unfold matchOmitted
  rw [h1, hs]

theorem matchOmitted_cycle (p : List Char) (hp : ∀ c ∈ p, c ≠ ' ') :
    matchOmitted (p ++ cycleLit) = some ("cycle", p) := by
  have h1 : scanAnchored conflictLit noParen (p ++ cycleLit) = none := by
    rw [conflictLit_cons, scan_append_no_space _ _ p _ hp]
    rfl
  have h2 : scanAnchored dupLit emptyTail (p ++ cycleLit) = none := by
    rw [dupLit_cons, scan_append_no_space _ _ p _ hp]
    rfl
  have hs : scanAnchored cycleLit emptyTail (p ++ cycleLit) = some p := by
    rw [cycleLit_cons, scan_append_no_space _ _ p _ hp]
    have hone : scanAnchored (' ' :: cycleTail) emptyTail (' ' :: cycleTail) = some [] := by
      decide
    rw [hone]
    simp
  unfold matchOmitted
  rw [h1, h2, hs]

theorem matchOmitted_managed (p x : List Char) (hp : ∀ c ∈ p, c ≠ ' ')
    (hx1 : x ≠ []) (hx2 : ∀ c ∈ x, c ≠ ' ') (hx3 : ∀ c ∈ x, c ≠ ')') :
    matchOmitted (p ++ (managedLit ++ x)) = some ("managed", p) := by
  have h1 : scanAnchored conflictLit noParen (p ++ (managedLit ++ x)) = none := by
    rw [conflictLit_cons4, scan_append_no_space _ _ p _ hp,
        scan_omitted_over_managed _ _ x hx2]
    rfl
  have h2 : scanAnchored dupLit emptyTail (p ++ (managedLit ++ x)) = none := by
    rw [dupLit_cons4, scan_append_no_space _ _ p _ hp,
        scan_omitted_over_managed _ _ x hx2]
    rfl
  have h3 : scanAnchored cycleLit emptyTail (p ++ (managedLit ++ x)) = none := by
    rw [cycleLit_cons4, scan_append_no_space _ _ p _ hp,
        scan_omitted_over_managed _ _ x hx2]
    rfl
  have hs : scanAnchored managedLit noParen (p ++ (managedLit ++ x)) = some p := by
    rw [managedLit_cons, scan_append_no_space _ _ p _ hp,
        scan_head_match _ _ _ (noParen_of x hx1 hx3)]
    simp
  unfold matchOmitted
  rw [h1, h2, h3, hs]

theorem lookupA_insertA (m : List (CacheManager.CKey × CacheManager.CacheData))
    (k : CacheManager.CKey) (v : CacheManager.CacheData) :
    CacheManager.lookupA (CacheManager.insertA m k v) k = some v := by
  simp [CacheManager.lookupA, CacheManager.insertA]

theorem set_mem_lookup (st : CacheManager.CacheState) (p k d : String)
    (env : CacheManager.Env) (m : Int) (h : env.statResult = some m) :
    CacheManager.lookupA (CacheManager.set st p k d env).memoryCache (p, k) =
      some { data := d, timestamp := env.now, pomMtime := m,
             version := CacheManager.CACHE_VERSION } := by
  unfold CacheManager.set CacheManager.setBody
  rw [h]
  split_ifs <;> simp [lookupA_insertA]

/-! ## The claims -/

/-- C1 (code behaviour at the claim's failing input): the tree parser
computes depth 0 for the line `[INFO] +- com.foo:baz:jar:2.0` — only the
single space between the drawing glyphs and the coordinates is counted,
the glyphs themselves are skipped without counting — so the two example
lines produce TWO roots, `bar:1.0` and `baz:2.0`, with no child
relationship; and a depth-2 Maven line (`|` plus two spaces plus `+- `,
six leading characters) computes level 1, not 2. -/
theorem c1_indent_code_behavior :
    MavenUtils.parseDependencyTree
      "[INFO] com.foo:bar:jar:1.0\n[INFO] +- com.foo:baz:jar:2.0" =
      [.mk "com.foo" "bar" "jar" "1.0" none none none [],
       .mk "com.foo" "baz" "jar" "2.0" none none none []] ∧
    MavenUtils.calculateIndent "+- com.foo:baz:jar:2.0" = 0 ∧
    MavenUtils.calculateIndent "|  +- com.foo:baz:jar:2.0" = 1 :=
  ⟨rfl, rfl, rfl⟩

/-- C3: the freshness validator accepts an entry exactly when the version
matches, the age is within the fixed 1-hour TTL, and the live stat probe
succeeds with an mtime not strictly newer than the stored one; a failed
probe or an over-TTL age each force invalidity. -/
theorem c3_freshness_validator (cached : CacheManager.CacheData)
    (env : CacheManager.Env) :
    (CacheManager.isCacheValid cached env = true ↔
      cached.version = CacheManager.CACHE_VERSION ∧
      env.now - cached.timestamp ≤ CacheManager.MAX_CACHE_AGE_MS ∧
      ∃ m, env.statResult = some m ∧ m ≤ cached.pomMtime) ∧
    (env.statResult = none → CacheManager.isCacheValid cached env = false) ∧
    (env.now - cached.timestamp > CacheManager.MAX_CACHE_AGE_MS →
      CacheManager.isCacheValid cached env = false) := by
  unfold CacheManager.isCacheValid
  cases h : env.statResult with
  | none =>
    simp only [h]
    refine ⟨⟨fun hv => ?_, fun hc => ?_⟩, fun _ => ?_, fun hage => ?_⟩
    · split_ifs at hv
    · obtain ⟨_, _, m, hm, _⟩ := hc
      cases hm
    · split_ifs <;> rfl
    · split_ifs <;> rfl
  | some m =>
    simp only [h]
    by_cases h1 : cached.version = CacheManager.CACHE_VERSION
    · by_cases h2 : env.now - cached.timestamp > CacheManager.MAX_CACHE_AGE_MS
      · refine ⟨⟨fun hv => ?_, fun hc => ?_⟩, fun hn => ?_, fun _ => ?_⟩
        · rw [if_neg (by simp [h1]), if_pos h2] at hv
          cases hv
        · obtain ⟨_, hage2, _, _, _⟩ := hc
          omega
        · cases hn
        · rw [if_neg (by simp [h1]), if_pos h2]
      · by_cases h3 : m > cached.pomMtime
        · refine ⟨⟨fun hv => ?_, fun hc => ?_⟩, fun hn => ?_, fun hage => ?_⟩
          · rw [if_neg (by simp [h1]), if_neg h2] at hv
            simp [h3] at hv
          · obtain ⟨_, _, m2, hm2, hle⟩ := hc
            injection hm2 with he
            omega
          · cases hn
          · omega
        · refine ⟨⟨fun _ => ?_, fun _ => ?_⟩, fun hn => ?_, fun hage => ?_⟩
          · exact ⟨h1, by omega, m, rfl, by omega⟩
          · rw [if_neg (by simp [h1]), if_neg h2]
            simp [h3]
          · cases hn
          · omega
    · refine ⟨⟨fun hv => ?_, fun hc => ?_⟩, fun hn => ?_, fun hage => ?_⟩
      · rw [if_pos (by simp [h1])] at hv
        cases hv
      · obtain ⟨hv1, _, _⟩ := hc
        exact absurd hv1 h1
      · cases hn
      · rw [if_pos (by simp [h1])]

/-- C3 witness: a concrete fresh entry is valid. -/
theorem c3_freshness_validator_witness :
    CacheManager.isCacheValid
      { data := "D", timestamp := 0, pomMtime := 5, version := "1.0.0" }
      { statResult := some 5, now := 1000, storageAvailable := true,
        wsUpdateOk := true, fileWriteOk := true } = true := by
  exact (c3_freshness_validator _ _).1.mpr ⟨rfl, by decide, 5, rfl, by decide⟩

/-- C2 counterexample: with the entry present only in the large-blob tier
(and valid), `get` returns its data but leaves the small-persistent tier
EMPTY — the claim's "backfills every faster tier above the hit", i.e.
"writes the entry into both the fast tier and the small-persistent tier",
is false for the large-blob hit. -/
theorem c2_claim_counterexample :
    (CacheManager.get
        { memoryCache := [], workspaceState := [],
          fileCache := [(("p", "dt"),
            { data := "D", timestamp := 0, pomMtime := 0, version := "1.0.0" })] }
        "p" "dt" false
        { statResult := some 0, now := 0, storageAvailable := true,
          wsUpdateOk := true, fileWriteOk := true }).1 = some "D" ∧
    (CacheManager.get
        { memoryCache := [], workspaceState := [],
          fileCache := [(("p", "dt"),
            { data := "D", timestamp := 0, pomMtime := 0, version := "1.0.0" })] }
        "p" "dt" false
        { statResult := some 0, now := 0, storageAvailable := true,
          wsUpdateOk := true, fileWriteOk := true }).2.workspaceState = [] ∧
    (CacheManager.get
        { memoryCache := [], workspaceState := [],
          fileCache := [(("p", "dt"),
            { data := "D", timestamp := 0, pomMtime := 0, version := "1.0.0" })] }
        "p" "dt" false
        { statResult := some 0, now := 0, storageAvailable := true,
          wsUpdateOk := true, fileWriteOk := true }).2.memoryCache =
      [(("p", "dt"),
        { data := "D", timestamp := 0, pomMtime := 0, version := "1.0.0" })] :=
  ⟨rfl, rfl, rfl⟩

/-- C2 (amended): `get` with `forceRefresh = false` probes the tiers in
the order fast, small-persistent, large-blob and returns the first entry
passing the freshness validator, but backfills ONLY the fast tier: a
small-persistent hit writes the fast tier; a large-blob hit writes the
fast tier and leaves the small-persistent tier unchanged. -/
theorem c2_backfill_amended (st : CacheManager.CacheState)
    (p k : String) (env : CacheManager.Env) (c : CacheManager.CacheData) :
    (CacheManager.lookupA st.memoryCache (p, k) = some c →
      CacheManager.isCacheValid c env = true →
      CacheManager.get st p k false env = (some c.data, st)) ∧
    ((∀ c2, CacheManager.lookupA st.memoryCache (p, k) = some c2 →
        CacheManager.isCacheValid c2 env = false) →
      CacheManager.lookupA st.workspaceState (p, k) = some c →
      CacheManager.isCacheValid c env = true →
      CacheManager.get st p k false env =
        (some c.data,
         { st with memoryCache := CacheManager.insertA st.memoryCache (p, k) c })) ∧
    ((∀ c2, CacheManager.lookupA st.memoryCache (p, k) = some c2 →
        CacheManager.isCacheValid c2 env = false) →
      (∀ c2, CacheManager.lookupA st.workspaceState (p, k) = some c2 →
        CacheManager.isCacheValid c2 env = false) →
      CacheManager.getFromFileCache st (p, k) env = some c →
      CacheManager.isCacheValid c env = true →
      CacheManager.get st p k false env =
        (some c.data,
         { st with memoryCache := CacheManager.insertA st.memoryCache (p, k) c })) := by
  refine ⟨fun h1 h2 => ?_, fun hm h1 h2 => ?_, fun hm hw h1 h2 => ?_⟩
  · simp [CacheManager.get, h1, h2]
  · cases hmem : CacheManager.lookupA st.memoryCache (p, k) with
    | none => simp [CacheManager.get, hmem, h1, h2]
    | some c2 => simp [CacheManager.get, hmem, hm c2 hmem, h1, h2]
  · cases hmem : CacheManager.lookupA st.memoryCache (p, k) with
    | none =>
      cases hws : CacheManager.lookupA st.workspaceState (p, k) with
      | none => simp [CacheManager.get, hmem, hws, h1, h2]
      | some c3 => simp [CacheManager.get, hmem, hws, hw c3 hws, h1, h2]
    | some c2 =>
      cases hws : CacheManager.lookupA st.workspaceState (p, k) with
      | none => simp [CacheManager.get, hmem, hm c2 hmem, hws, h1, h2]
      | some c3 => simp [CacheManager.get, hmem, hm c2 hmem, hws, hw c3 hws, h1, h2]

/-- C2 witness: the amended large-blob clause at a concrete state. -/
theorem c2_backfill_amended_witness :
    CacheManager.get
      { memoryCache := [], workspaceState := [],
        fileCache := [(("p", "dt"),
          { data := "D", timestamp := 0, pomMtime := 0, version := "1.0.0" })] }
      "p" "dt" false
      { statResult := some 0, now := 0, storageAvailable := true,
        wsUpdateOk := true, fileWriteOk := true } =
    (some "D",
     { memoryCache := [(("p", "dt"),
         { data := "D", timestamp := 0, pomMtime := 0, version := "1.0.0" })],
       workspaceState := [],
       fileCache := [(("p", "dt"),
         { data := "D", timestamp := 0, pomMtime := 0, version := "1.0.0" })] }) := by
  exact ((c2_backfill_amended _ "p" "dt" _
      { data := "D", timestamp := 0, pomMtime := 0, version := "1.0.0" }).2.2
    (fun c2 h => by cases h) (fun c2 h => by cases h) rfl (by decide))

/-- C5: `set` estimates the serialised size of the payload, and writes
exactly one persistent tier: below the fixed 50 KiB threshold the
small-persistent tier is written and the large-blob tier is untouched,
otherwise the large-blob tier is written and the small-persistent tier is
untouched. -/
theorem c5_tier_partition (st : CacheManager.CacheState) (p k d : String)
    (env : CacheManager.Env) (m : Int)
    (h1 : env.statResult = some m) (h2 : env.storageAvailable = true)
    (h3 : env.wsUpdateOk = true) (h4 : env.fileWriteOk = true) :
    (CacheManager.estimateDataSize d < CacheManager.SMALL_DATA_THRESHOLD →
      (CacheManager.set st p k d env).workspaceState =
        CacheManager.insertA st.workspaceState (p, k)
          { data := d, timestamp := env.now, pomMtime := m,
            version := CacheManager.CACHE_VERSION } ∧
      (CacheManager.set st p k d env).fileCache = st.fileCache) ∧
    (¬ CacheManager.estimateDataSize d < CacheManager.SMALL_DATA_THRESHOLD →
      (CacheManager.set st p k d env).fileCache =
        CacheManager.insertA st.fileCache (p, k)
          { data := d, timestamp := env.now, pomMtime := m,
            version := CacheManager.CACHE_VERSION } ∧
      (CacheManager.set st p k d env).workspaceState = st.workspaceState) := by
  constructor
  · intro hsize
    simp [CacheManager.set, CacheManager.setBody, h1, h3, if_pos hsize]
  · intro hsize
    simp [CacheManager.set, CacheManager.setBody, h1, h2, h4, if_neg hsize]

/-- C5 witness: a 60 KiB serialised payload (61440 characters) lands in
the large-blob tier only; the small-persistent tier stays empty. -/
theorem c5_tier_partition_witness :
    (CacheManager.set { memoryCache := [], workspaceState := [], fileCache := [] }
        "p" "dt" (String.mk (List.replicate 61440 'a'))
        { statResult := some 0, now := 0, storageAvailable := true,
          wsUpdateOk := true, fileWriteOk := true }).fileCache =
      [(("p", "dt"),
        { data := String.mk (List.replicate 61440 'a'), timestamp := 0, pomMtime := 0,
          version := "1.0.0" })] ∧
    (CacheManager.set { memoryCache := [], workspaceState := [], fileCache := [] }
        "p" "dt" (String.mk (List.replicate 61440 'a'))
        { statResult := some 0, now := 0, storageAvailable := true,
          wsUpdateOk := true, fileWriteOk := true }).workspaceState = [] := by
  have hsize : ¬ CacheManager.estimateDataSize (String.mk (List.replicate 61440 'a')) <
      CacheManager.SMALL_DATA_THRESHOLD := by
    have hlen : CacheManager.estimateDataSize (String.mk (List.replicate 61440 'a')) = 61440 := by
      show (List.replicate 61440 'a').length = 61440
      rw [List.length_replicate]
    rw [hlen]
    decide
  have h := (c5_tier_partition
      { memoryCache := [], workspaceState := [], fileCache := [] }
      "p" "dt" (String.mk (List.replicate 61440 'a'))
      { statResult := some 0, now := 0, storageAvailable := true,
        wsUpdateOk := true, fileWriteOk := true } 0 rfl rfl rfl rfl).2 hsize
  exact ⟨h.1, h.2⟩

/-- C7 counterexample: when the `fs.stat` probe on the source file throws,
the whole `try` block is abandoned and NOT EVEN the fast (in-process) tier
is written — "the fast tier is always written" is false for such a call. -/
theorem c7_claim_counterexample :
    (CacheManager.set { memoryCache := [], workspaceState := [], fileCache := [] }
        "p" "dt" "D"
        { statResult := none, now := 0, storageAvailable := true,
          wsUpdateOk := true, fileWriteOk := true }).memoryCache = [] ∧
    (CacheManager.setBody { memoryCache := [], workspaceState := [], fileCache := [] }
        "p" "dt" "D"
        { statResult := none, now := 0, storageAvailable := true,
          wsUpdateOk := true, fileWriteOk := true }).2 = true :=
  ⟨rfl, rfl⟩

/-- C7 (amended): whenever the `fs.stat` probe succeeds, `set` writes the
fast tier — for every persistent-tier outcome; and a failing persistent
write (the thrown-flag of the `try` body is set) is swallowed by `set`,
which still returns the state holding the completed fast-tier write. -/
theorem c7_set_amended (st : CacheManager.CacheState) (p k d : String)
    (env : CacheManager.Env) (m : Int) (h : env.statResult = some m) :
    CacheManager.lookupA (CacheManager.set st p k d env).memoryCache (p, k) =
      some { data := d, timestamp := env.now, pomMtime := m,
             version := CacheManager.CACHE_VERSION } ∧
    (env.wsUpdateOk = false →
      CacheManager.estimateDataSize d < CacheManager.SMALL_DATA_THRESHOLD →
      (CacheManager.setBody st p k d env).2 = true ∧
      CacheManager.set st p k d env =
        { st with memoryCache :=
            (CacheManager.insertA st.memoryCache (p, k) ⟨d, env.now, m, CacheManager.CACHE_VERSION⟩) }) ∧
    (env.fileWriteOk = false → env.storageAvailable = true →
      ¬ CacheManager.estimateDataSize d < CacheManager.SMALL_DATA_THRESHOLD →
      (CacheManager.setBody st p k d env).2 = true ∧
      CacheManager.set st p k d env =
        { st with memoryCache :=
            (CacheManager.insertA st.memoryCache (p, k) ⟨d, env.now, m, CacheManager.CACHE_VERSION⟩) }) := by
  refine ⟨set_mem_lookup st p k d env m h, fun hw hsize => ?_, fun hf hs hsize => ?_⟩
  · unfold CacheManager.set CacheManager.setBody
    rw [h]
    simp [hw, if_pos hsize]
  · unfold CacheManager.set CacheManager.setBody
    rw [h]
    simp [hf, hs, if_neg hsize]

/-- C7 witness: the amended clauses at a concrete failing persistent
write. -/
theorem c7_set_amended_witness :
    CacheManager.set { memoryCache := [], workspaceState := [], fileCache := [] }
        "p" "dt" "D"
        { statResult := some 0, now := 0, storageAvailable := true,
          wsUpdateOk := false, fileWriteOk := true } =
      { memoryCache := [(("p", "dt"),
          { data := "D", timestamp := 0, pomMtime := 0, version := "1.0.0" })],
        workspaceState := [], fileCache := [] } := by
  have h := (c7_set_amended
      { memoryCache := [], workspaceState := [], fileCache := [] }
      "p" "dt" "D"
      { statResult := some 0, now := 0, storageAvailable := true,
        wsUpdateOk := false, fileWriteOk := true } 0 rfl).2.1 rfl (by decide)
  exact h.2

/-- C8: a `set` immediately followed by a `get` of the same key, with the
same environment (no intervening source modification, same clock) and no
forced refresh, returns the stored payload. -/
theorem c8_round_trip (st : CacheManager.CacheState) (p k d : String)
    (env : CacheManager.Env) (m : Int) (h : env.statResult = some m) :
    CacheManager.get (CacheManager.set st p k d env) p k false env =
      (some d, CacheManager.set st p k d env) := by
  have hmem : CacheManager.lookupA (CacheManager.set st p k d env).memoryCache (p, k) =
      some { data := d, timestamp := env.now, pomMtime := m,
             version := CacheManager.CACHE_VERSION } :=
    set_mem_lookup st p k d env m h
  have hvalid : CacheManager.isCacheValid
      { data := d, timestamp := env.now, pomMtime := m,
        version := CacheManager.CACHE_VERSION } env = true := by
    unfold CacheManager.isCacheValid
    rw [h]
    simp [CacheManager.CACHE_VERSION, CacheManager.MAX_CACHE_AGE_MS]
  simp [CacheManager.get, hmem, hvalid]

/-- C8 witness: a concrete round trip. -/
theorem c8_round_trip_witness :
    CacheManager.get
      (CacheManager.set { memoryCache := [], workspaceState := [], fileCache := [] }
        "p" "dt" "D"
        { statResult := some 0, now := 0, storageAvailable := true,
          wsUpdateOk := true, fileWriteOk := true })
      "p" "dt" false
      { statResult := some 0, now := 0, storageAvailable := true,
        wsUpdateOk := true, fileWriteOk := true } =
    (some "D",
     CacheManager.set { memoryCache := [], workspaceState := [], fileCache := [] }
       "p" "dt" "D"
       { statResult := some 0, now := 0, storageAvailable := true,
         wsUpdateOk := true, fileWriteOk := true }) :=
  c8_round_trip _ "p" "dt" "D" _ 0 rfl

theorem destructureParts_short (parts : List (List Char)) (h : parts.length < 4) :
    destructureParts parts = none := by
  match parts with
  | [] => rfl
  | [_] => rfl
  | [_, _] => rfl
  | [_, _, _] => rfl
  | _ :: _ :: _ :: _ :: _ =>
    simp [List.length_cons] at h
    omega

/-- C4: the coordinate decoder splits on `:`; fewer than 4 fields fail,
exactly 4 decode to `(groupId, artifactId, type, version)`, exactly 5 add
the scope, and 6 or more use only the first six in the order
`(groupId, artifactId, type, classifier, version, scope)` — classifier
before version; every decoded field is trimmed after the split. -/
theorem c4_coordinate_decoder (content : String) :
    ((splitOnChar ':' content.data).length < 4 →
      MavenUtils.parseResolvedDependencyNode content = none) ∧
    (∀ a b c d, splitOnChar ':' content.data = [a, b, c, d] →
      MavenUtils.parseResolvedDependencyNode content =
        some ⟨String.mk (trim a), String.mk (trim b), String.mk (trim c),
              String.mk (trim d), none, none⟩) ∧
    (∀ a b c d e, splitOnChar ':' content.data = [a, b, c, d, e] →
      MavenUtils.parseResolvedDependencyNode content =
        some ⟨String.mk (trim a), String.mk (trim b), String.mk (trim c),
              String.mk (trim d), some (String.mk (trim e)), none⟩) ∧
    (∀ a b c d e f rest, splitOnChar ':' content.data = a :: b :: c :: d :: e :: f :: rest →
      MavenUtils.parseResolvedDependencyNode content =
        some ⟨String.mk (trim a), String.mk (trim b), String.mk (trim c),
              String.mk (trim e), some (String.mk (trim f)),
              some (String.mk (trim d))⟩) := by
  refine ⟨fun h => ?_, fun a b c d hsp => ?_, fun a b c d e hsp => ?_,
          fun a b c d e f rest hsp => ?_⟩
  · unfold MavenUtils.parseResolvedDependencyNode parseResolvedDependencyNodeL
    rw [destructureParts_short _ h]
  · unfold MavenUtils.parseResolvedDependencyNode parseResolvedDependencyNodeL
    rw [hsp]
    rfl
  · unfold MavenUtils.parseResolvedDependencyNode parseResolvedDependencyNodeL
    rw [hsp]
    rfl
  · unfold MavenUtils.parseResolvedDependencyNode parseResolvedDependencyNodeL
    rw [hsp]
    rfl

/-- C4 witness: a concrete seven-field coordinate keeps only the first
six, with classifier before version and trimmed fields. -/
theorem c4_coordinate_decoder_witness :
    splitOnChar ':' " g : a : jar : cls : 1.0 : test : extra".data =
      [" g ".data, " a ".data, " jar ".data, " cls ".data, " 1.0 ".data,
       " test ".data, " extra".data] ∧
    MavenUtils.parseResolvedDependencyNode " g : a : jar : cls : 1.0 : test : extra" =
      some ⟨"g", "a", "jar", "1.0", some "test", some "cls"⟩ := by
  refine ⟨by decide, ?_⟩
  have h := (c4_coordinate_decoder " g : a : jar : cls : 1.0 : test : extra").2.2.2
    " g ".data " a ".data " jar ".data " cls ".data " 1.0 ".data " test ".data
    [" extra".data] (by decide)
  rw [h]
  rfl

theorem listStep_outcome (st : ListState) (line : List Char) :
    listStep st line = st ∨
    ∃ d, st.2.contains (depKey d) = false ∧
      listStep st line = (st.1 ++ [d], depKey d :: st.2) := by
  simp only [listStep]
  split
  · exact Or.inl rfl
  · split
    · exact Or.inl rfl
    · split
      · exact Or.inl rfl
      · next d heq =>
        split
        · exact Or.inl rfl
        · next hseen =>
          exact Or.inr ⟨d, by simpa using hseen, rfl⟩

theorem listFold_inv (lines : List (List Char)) (st : ListState)
    (h1 : ∀ d ∈ st.1, st.2.contains (depKey d) = true)
    (h2 : List.Pairwise (fun a b => depKey a ≠ depKey b) st.1) :
    (∀ d ∈ (lines.foldl listStep st).1,
      (lines.foldl listStep st).2.contains (depKey d) = true) ∧
    List.Pairwise (fun a b => depKey a ≠ depKey b) (lines.foldl listStep st).1 := by
  induction lines generalizing st with
  | nil => exact ⟨h1, h2⟩
  | cons l ls ih =>
    rw [List.foldl_cons]
    rcases listStep_outcome st l with hcase | ⟨d, hfresh, hcase⟩
    · rw [hcase]
      exact ih st h1 h2
    · rw [hcase]
      apply ih
      · intro e he
        rcases List.mem_append.mp he with hin | hin
        · rw [List.contains_cons, h1 e hin]
          simp
        · have heq : e = d := by simpa using hin
          subst heq
          simp [List.contains_cons]
      · rw [List.pairwise_append]
        refine ⟨h2, by simp, ?_⟩
        intro a ha b hb
        have heq : b = d := by simpa using hb
        subst heq
        intro hkey
        have hc := h1 a ha
        rw [hkey] at hc
        rw [hc] at hfresh
        cases hfresh

/-- C6: the flat-list parser never emits two records with the same
`(groupId, artifactId)` pair — the first occurrence wins and later
duplicates, even with a different version or scope, are dropped, as the
concrete two-line example shows. -/
theorem c6_list_dedup (text : String) :
    List.Pairwise
      (fun d1 d2 => ¬(d1.groupId = d2.groupId ∧ d1.artifactId = d2.artifactId))
      (MavenUtils.parseResolvedDependencies text) ∧
    MavenUtils.parseResolvedDependencies
      "[INFO]    com.foo:a:jar:1.0:compile\n[INFO]    com.foo:a:jar:2.0:test" =
      [{ groupId := "com.foo", artifactId := "a", type := "jar", version := "1.0",
         scope := some "compile", classifier := none }] := by
  constructor
  · have h := listFold_inv (splitOnChar '\n' text.data) ([], [])
      (by intro d hd; cases hd) List.Pairwise.nil
    unfold MavenUtils.parseResolvedDependencies parseListLines
    apply List.Pairwise.imp ?_ h.2
    intro a b hne hab
    apply hne
    unfold depKey
    rw [hab.1, hab.2]
  · rfl

theorem treeStep_of_skipped (line : List Char) (h : treeLineSkipped line = true)
    (st : TreeState) : treeStep st line = st := by
  simp only [treeLineSkipped] at h
  simp only [treeStep]
  split at h
  · next hc => simp only [if_pos hc]
  · next hc =>
    rw [if_neg hc]
    split at h
    · next hc2 => simp only [if_pos hc2]
    · next hc2 =>
      rw [if_neg hc2]
      split at h
      · next hc3 => simp only [if_pos hc3]
      · next hc3 =>
        rw [if_neg hc3]
        split at h
        · next heq => rfl
        · next d heq => cases h

theorem listStep_of_skipped (line : List Char) (h : listLineSkipped line = true)
    (st : ListState) : listStep st line = st := by
  simp only [listLineSkipped] at h
  simp only [listStep]
  split at h
  · next hc => simp only [if_pos hc]
  · next hc =>
    rw [if_neg hc]
    split at h
    · next hc2 => simp only [if_pos hc2]
    · next hc2 =>
      rw [if_neg hc2]
      split at h
      · next heq => rfl
      · next d heq => cases h

/-- C9: both parsers are total functions of the input text (they are
defined without any partiality in this embedding), and a line that the
filters reject or whose decode fails is skipped without touching the
parser state: inserting such a line anywhere leaves both outputs
unchanged, so a malformed line never aborts the parse. -/
theorem c9_parser_totality (pre post : List (List Char)) (l : List Char) :
    (treeLineSkipped l = true →
      parseTreeLines (pre ++ l :: post) = parseTreeLines (pre ++ post)) ∧
    (listLineSkipped l = true →
      parseListLines (pre ++ l :: post) = parseListLines (pre ++ post)) := by
  constructor
  · intro h
    unfold parseTreeLines
    rw [List.foldl_append, List.foldl_append, List.foldl_cons,
        treeStep_of_skipped l h]
  · intro h
    unfold parseListLines
    rw [List.foldl_append, List.foldl_append, List.foldl_cons,
        listStep_of_skipped l h]

/-- C9 witness: a malformed `[INFO]` line (no decodable coordinates) is
skipped by both parsers. -/
theorem c9_parser_totality_witness :
    treeLineSkipped "[INFO] not a dependency".data = true ∧
    listLineSkipped "[INFO] not a dependency".data = true ∧
    parseTreeLines (["[INFO] com.foo:a:jar:1.0".data] ++
        "[INFO] not a dependency".data :: []) =
      parseTreeLines (["[INFO] com.foo:a:jar:1.0".data] ++ []) ∧
    parseListLines (["[INFO] com.foo:a:jar:1.0".data] ++
        "[INFO] not a dependency".data :: []) =
      parseListLines (["[INFO] com.foo:a:jar:1.0".data] ++ []) := by
  refine ⟨by decide, by decide, ?_, ?_⟩
  · exact (c9_parser_totality ["[INFO] com.foo:a:jar:1.0".data] []
      "[INFO] not a dependency".data).1 (by decide)
  · exact (c9_parser_totality ["[INFO] com.foo:a:jar:1.0".data] []
      "[INFO] not a dependency".data).2 (by decide)

theorem last_ne_of_concat_lit (p lit : List Char) (c : Char)
    (h : lit.getLast? = some c) (hc : c ≠ ')') :
    (p ++ lit).getLast? ≠ some ')' := by
  rw [List.getLast?_append, h]
  intro he
  rw [Option.or] at he
  injection he with he2
  exact hc he2

theorem append_lit_ne_nil (p lit x : List Char) (hl : lit ≠ []) :
    p ++ (lit ++ x) ≠ [] := by
  intro he
  rcases List.append_eq_nil.mp he with ⟨_, h2⟩
  rcases List.append_eq_nil.mp h2 with ⟨h3, _⟩
  exact hl h3

theorem append_lit_ne_nil2 (p lit : List Char) (hl : lit ≠ []) :
    p ++ lit ≠ [] := by
  intro he
  rcases List.append_eq_nil.mp he with ⟨_, h2⟩
  exact hl h2

theorem noTerm_append (a b : List Char) (ha : ∀ c ∈ a, isLineTerm c = false)
    (hb : ∀ c ∈ b, isLineTerm c = false) :
    ∀ c ∈ a ++ b, isLineTerm c = false := by
  intro c hc
  rcases List.mem_append.mp hc with h | h
  · exact ha c h
  · exact hb c h

theorem conflictLit_noTerm : ∀ c ∈ conflictLit, isLineTerm c = false := by decide

theorem dupLit_noTerm : ∀ c ∈ dupLit, isLineTerm c = false := by decide

theorem cycleLit_noTerm : ∀ c ∈ cycleLit, isLineTerm c = false := by decide

theorem managedLit_noTerm : ∀ c ∈ managedLit, isLineTerm c = false := by decide

/-- C10: the omission-suffix matching of `parseDependencyNode` does not
require parenthesis wrapping: for every space-free payload `p` and every
nonempty conflict/managed argument `x` containing no space and no closing
parenthesis, the content `p` followed by one of the four omission
suffixes decodes with the corresponding `omittedReason` and with the
suffix stripped before the coordinate split; the parenthesis-wrapped
forms behave identically whenever the wrapped content contains no line
terminator (the wrap regex's `.` never matches one); parenthesis
unwrapping and suffix classification are independent steps. -/
theorem c10_omission_suffix (p x : List Char) (hp : ∀ c ∈ p, c ≠ ' ')
    (hx1 : x ≠ []) (hx2 : ∀ c ∈ x, c ≠ ' ') (hx3 : ∀ c ∈ x, c ≠ ')') :
    (parseDependencyNodeL (p ++ (conflictLit ++ x)) =
      decodeCoordTree (trim p) (some "conflict")) ∧
    ((∀ c ∈ p, isLineTerm c = false) → (∀ c ∈ x, isLineTerm c = false) →
      parseDependencyNodeL ('(' :: ((p ++ (conflictLit ++ x)) ++ [')'])) =
        decodeCoordTree (trim p) (some "conflict")) ∧
    (parseDependencyNodeL (p ++ dupLit) =
      decodeCoordTree (trim p) (some "duplicate")) ∧
    ((∀ c ∈ p, isLineTerm c = false) →
      parseDependencyNodeL ('(' :: ((p ++ dupLit) ++ [')'])) =
        decodeCoordTree (trim p) (some "duplicate")) ∧
    (parseDependencyNodeL (p ++ cycleLit) =
      decodeCoordTree (trim p) (some "cycle")) ∧
    ((∀ c ∈ p, isLineTerm c = false) →
      parseDependencyNodeL ('(' :: ((p ++ cycleLit) ++ [')'])) =
        decodeCoordTree (trim p) (some "cycle")) ∧
    (parseDependencyNodeL (p ++ (managedLit ++ x)) =
      decodeCoordTree (trim p) (some "managed")) ∧
    ((∀ c ∈ p, isLineTerm c = false) → (∀ c ∈ x, isLineTerm c = false) →
      parseDependencyNodeL ('(' :: ((p ++ (managedLit ++ x)) ++ [')'])) =
        decodeCoordTree (trim p) (some "managed")) := by
  have hmc := matchOmitted_conflict p x hp hx1 hx3
  have hmd := matchOmitted_dup p hp
  have hmy := matchOmitted_cycle p hp
  have hmm := matchOmitted_managed p x hp hx1 hx2 hx3
  refine ⟨?_, fun ht1 ht2 => ?_, ?_, fun ht1 => ?_, ?_, fun ht1 => ?_, ?_,
    fun ht1 ht2 => ?_⟩
  · simp only [parseDependencyNodeL]
    rw [unwrapParens_of_last_ne _ (getLast_ne_of_no_paren p conflictLit x hx1 hx3), hmc]
  · simp only [parseDependencyNodeL]
    rw [unwrapParens_wrap _ (append_lit_ne_nil p conflictLit x (by decide))
        (noTerm_append p _ ht1 (noTerm_append conflictLit x conflictLit_noTerm ht2)),
      hmc]
  · simp only [parseDependencyNodeL]
    rw [unwrapParens_of_last_ne _ (last_ne_of_concat_lit p dupLit 'e' (by decide) (by decide)),
        hmd]
  · simp only [parseDependencyNodeL]
    rw [unwrapParens_wrap _ (append_lit_ne_nil2 p dupLit (by decide))
        (noTerm_append p dupLit ht1 dupLit_noTerm), hmd]
  · simp only [parseDependencyNodeL]
    rw [unwrapParens_of_last_ne _ (last_ne_of_concat_lit p cycleLit 'e' (by decide) (by decide)),
        hmy]
  · simp only [parseDependencyNodeL]
    rw [unwrapParens_wrap _ (append_lit_ne_nil2 p cycleLit (by decide))
        (noTerm_append p cycleLit ht1 cycleLit_noTerm), hmy]
  · simp only [parseDependencyNodeL]
    rw [unwrapParens_of_last_ne _ (getLast_ne_of_no_paren p managedLit x hx1 hx3), hmm]
  · simp only [parseDependencyNodeL]
    rw [unwrapParens_wrap _ (append_lit_ne_nil p managedLit x (by decide))
        (noTerm_append p _ ht1 (noTerm_append managedLit x managedLit_noTerm ht2)),
      hmm]

/-- C10 witness: the concrete payload `g:a:jar:1.0` under all four
suffixes, wrapped and unwrapped. -/
theorem c10_omission_suffix_witness :
    parseDependencyNodeL ("g:a:jar:1.0".data ++ (conflictLit ++ "2.0".data)) =
      decodeCoordTree (trim "g:a:jar:1.0".data) (some "conflict") ∧
    parseDependencyNodeL ('(' :: (("g:a:jar:1.0".data ++ dupLit) ++ [')'])) =
      decodeCoordTree (trim "g:a:jar:1.0".data) (some "duplicate") ∧
    parseDependencyNodeL ("g:a:jar:1.0".data ++ (managedLit ++ "2.0".data)) =
      decodeCoordTree (trim "g:a:jar:1.0".data) (some "managed") := by
  have h := c10_omission_suffix "g:a:jar:1.0".data "2.0".data
    (by decide) (by decide) (by decide) (by decide)
  exact ⟨h.1, h.2.2.2.1 (by decide), h.2.2.2.2.2.2.1⟩

/-- C10 counterexample: a payload ending in the suffix
`" - omitted for conflict with X"` with `X = "a)b"` — the conflict
argument containing a closing parenthesis — gets NO omission match at all
(the pattern's capture is `([^)]+)`), so the decoded node carries no
`omittedReason` and the suffix is NOT stripped: the whole text lands in
the version field.  The claim's "for every payload ... that ends in one
of the suffixes" is false as stated. -/
theorem c10_claim_counterexample :
    matchOmitted "g:a:jar:1.0 - omitted for conflict with a)b".data = none ∧
    parseDependencyNodeL "g:a:jar:1.0 - omitted for conflict with a)b".data =
      some (.mk "g" "a" "jar" "1.0 - omitted for conflict with a)b"
        none none none []) :=
  ⟨rfl, rfl⟩

/-- C6 witness: the de-duplication invariant and the first-wins example
at the concrete two-line text. -/
theorem c6_list_dedup_witness :
    List.Pairwise
      (fun d1 d2 => ¬(d1.groupId = d2.groupId ∧ d1.artifactId = d2.artifactId))
      (MavenUtils.parseResolvedDependencies
        "[INFO]    com.foo:a:jar:1.0:compile\n[INFO]    com.foo:a:jar:2.0:test") ∧
    MavenUtils.parseResolvedDependencies
      "[INFO]    com.foo:a:jar:1.0:compile\n[INFO]    com.foo:a:jar:2.0:test" =
      [{ groupId := "com.foo", artifactId := "a", type := "jar", version := "1.0",
         scope := some "compile", classifier := none }] :=
  ⟨(c6_list_dedup
      "[INFO]    com.foo:a:jar:1.0:compile\n[INFO]    com.foo:a:jar:2.0:test").1,
   (c6_list_dedup
      "[INFO]    com.foo:a:jar:1.0:compile\n[INFO]    com.foo:a:jar:2.0:test").2⟩

end MavenPom
